import Mathlib

/- Verification of the Partnur backend profile pipeline: a shallow embedding
of profileManager.js, aiService.js and the server route handlers, with
theorems about the merge, scoring, logging and analytics operations. -/

namespace Partnur

/-- Shallow embedding of the JavaScript values stored in profile fields:
null (also covering undefined), strings, numbers and arrays of strings. -/
inductive JVal where
  | null : JVal
  | str : String → JVal
  | num : ℚ → JVal
  | arr : List String → JVal
deriving DecidableEq, Repr

/-- JavaScript truthiness of an embedded value. -/
def JVal.truthy : JVal → Bool
  | .null => false
  | .str s => decide (s ≠ r"")
  | .num q => decide (q ≠ 0)
  | .arr _ => true

/-- A profile row: a value for every column name, JVal.null when absent. -/
abbrev Profile := String → JVal

/-- An extraction result: the key value pairs of the JSON object returned
by the extraction collaborator. -/
abbrev Extraction := List (String × JVal)

def emptyProfile : Profile := fun _ => JVal.null

/-- Reading one key of an extraction object. -/
def lookupX (x : Extraction) (f : String) : Option JVal :=
  Option.map Prod.snd (List.find? (fun pr => decide (pr.1 = f)) x)

/-- The arrayFields list of updateProfile in profileManager.js. -/
def arrayFields : List String :=
  [r"peak_hours", r"peak_days", r"top_products", r"staff_roles",
   r"payment_methods", r"ad_channels", r"platforms_used",
   r"goals", r"challenges"]

/-- The characters of a string as one character strings, the result of a
JavaScript spread of a string. -/
def strChars (s : String) : List String := s.toList.map String.singleton

/-- Elements produced by a JavaScript spread of a value inside an array
literal: arrays spread to their elements, strings to their characters;
numbers and null are not iterable, spreading them throws a TypeError. -/
def spreadElems : JVal → Option (List String)
  | .arr xs => some xs
  | .str s => some (strChars s)
  | _ => none

/-- First occurrence deduplication: the order produced by the JavaScript
idiom of building an array from a Set of a concatenated array. -/
def dedupFirst : List String → List String
  | [] => []
  | x :: xs => x :: List.filter (fun y => decide (y ≠ x)) (dedupFirst xs)

/-- The body of the array merge loop of updateProfile for one field of the
arrayFields list: a proposed array meeting a truthy current value is
concatenated with it and deduplicated through a Set; any other proposed
value is copied verbatim.  The inner none branch corresponds to a thrown
TypeError and is unreachable whenever mergeThrows is false. -/
def mergeArrayStep (cur : JVal) (v : JVal) : JVal :=
  match v with
  | JVal.arr prop =>
    if cur.truthy then
      match spreadElems cur with
      | some ce => JVal.arr (dedupFirst (ce ++ prop))
      | none => JVal.arr prop
    else JVal.arr prop
  | _ => v

/-- Value of one field of the row written by updateProfile, before the
timestamp and score columns are set: the array merge step on array fields,
verbatim copy of every other proposed value, current value when absent. -/
def mergedValue (current : Profile) (x : Extraction) (f : String) : JVal :=
  match lookupX x f with
  | none => current f
  | some v => if f ∈ arrayFields then mergeArrayStep (current f) v else v

/-- True when the updateProfile loop throws: some field of arrayFields has
an array proposed while the current value is truthy but not spreadable. -/
def mergeThrows (current : Profile) (x : Extraction) : Bool :=
  List.any arrayFields (fun f =>
    match lookupX x f with
    | some (JVal.arr _) => (current f).truthy && (spreadElems (current f)).isNone
    | _ => false)

/-- The static field schema of calculateProfileCompletion: field name and
completion weight. -/
def completionFields : List (String × ℕ) :=
  [(r"mobile_number", 5), (r"business_type", 10), (r"location_city", 8),
   (r"location_state", 7),
   (r"monthly_revenue", 8), (r"peak_hours", 5), (r"peak_days", 5),
   (r"top_products", 7), (r"staff_count", 5), (r"inventory_source", 5),
   (r"payment_methods", 5), (r"ad_channels", 5), (r"platforms_used", 5),
   (r"past_campaigns", 5),
   (r"goals", 8), (r"challenges", 7)]

/-- Filled test of calculateProfileCompletion: not null or undefined, not
the empty string, and not an empty array. -/
def isFilled : JVal → Bool
  | .null => false
  | .str s => decide (s ≠ r"")
  | .num _ => true
  | .arr xs => decide (xs ≠ [])

def completedPoints (p : Profile) : ℕ :=
  List.foldl (fun s fp => if isFilled (p fp.1) then s + fp.2 else s) 0 completionFields

def totalPoints : ℕ :=
  List.foldl (fun s fp => s + fp.2) 0 completionFields

/-- JavaScript Math.round for the nonnegative arguments used here: floor of
the argument plus one half, that is round half up. -/
def jsRound (q : ℚ) : ℤ := ⌊q + 1 / 2⌋

def calculateProfileCompletion (p : Profile) : ℤ :=
  jsRound ((completedPoints p : ℚ) / (totalPoints : ℚ) * 100)

/-- The row returned by the first database update inside updateProfile:
merged fields plus both timestamp columns; the score column still holds
its previous value at this point. -/
def dataRow (now : String) (p : Profile) (x : Extraction) : Profile := fun f =>
  if f = r"updated_at" then JVal.str now
  else if f = r"last_profile_update" then JVal.str now
  else mergedValue p x f

/-- The stored profile after updateProfile finishes: the returned row plus
the recomputed completion score written by the second update. -/
def storedRow (now : String) (p : Profile) (x : Extraction) : Profile := fun f =>
  if f = r"profile_completion_score"
  then JVal.num ((calculateProfileCompletion (dataRow now p x) : ℚ))
  else dataRow now p x f

/-- updateProfile as a state transformer on the stored profile: throws when
the array merge loop throws, otherwise stores the merged, timestamped and
rescored row. -/
def updateProfileFull (now : String) (p : Profile) (x : Extraction) : Except Unit Profile :=
  if mergeThrows p x then Except.error () else Except.ok (storedRow now p x)

/-- updateProfile as seen by its caller: the returned data row. -/
def updateProfileData (now : String) (p : Profile) (x : Extraction) : Except Unit Profile :=
  if mergeThrows p x then Except.error () else Except.ok (dataRow now p x)

/-- Membership is preserved by first occurrence deduplication. -/
theorem mem_dedupFirst {a : String} {l : List String} : a ∈ dedupFirst l ↔ a ∈ l := by
  induction l with
  | nil => simp [dedupFirst]
  | cons x xs ih =>
    simp only [dedupFirst, List.mem_cons, List.mem_filter, ih, decide_eq_true_eq]
    by_cases hax : a = x <;> simp [hax]

/-- First occurrence deduplication yields a list without duplicates. -/
theorem dedupFirst_nodup (l : List String) : (dedupFirst l).Nodup := by
  induction l with
  | nil => simp [dedupFirst]
  | cons x xs ih =>
    simp only [dedupFirst, List.nodup_cons]
    refine ⟨?_, ih.filter _⟩
    intro hmem
    rcases List.mem_filter.mp hmem with ⟨_, hx⟩
    simp at hx

/-- A list without duplicates is a fixed point of deduplication. -/
theorem dedupFirst_eq_self {l : List String} (h : l.Nodup) : dedupFirst l = l := by
  induction l with
  | nil => rfl
  | cons x xs ih =>
    rcases List.nodup_cons.mp h with ⟨hx, hxs⟩
    simp only [dedupFirst, ih hxs]
    congr 1
    refine List.filter_eq_self.mpr ?_
    intro a ha
    simp only [decide_eq_true_eq]
    intro hax
    exact hx (hax ▸ ha)

/-- Deduplication commutes with filtering. -/
theorem dedupFirst_filter_comm (q : String → Bool) (l : List String) :
    dedupFirst (List.filter q l) = List.filter q (dedupFirst l) := by
  induction l with
  | nil => rfl
  | cons x xs ih =>
    cases hq : q x with
    | true =>
      have hl : List.filter q (x :: xs) = x :: List.filter q xs := by
        simp [List.filter_cons, hq]
      have hr : List.filter q (dedupFirst (x :: xs))
          = x :: List.filter q (List.filter (fun y => decide (y ≠ x)) (dedupFirst xs)) := by
        show List.filter q (x :: List.filter (fun y => decide (y ≠ x)) (dedupFirst xs)) = _
        simp [List.filter_cons, hq]
      rw [hl, hr]
      show x :: List.filter (fun y => decide (y ≠ x)) (dedupFirst (List.filter q xs)) = _
      rw [ih, List.filter_comm]
    | false =>
      have hl : List.filter q (x :: xs) = List.filter q xs := by
        simp [List.filter_cons, hq]
      have hr : List.filter q (dedupFirst (x :: xs))
          = List.filter q (List.filter (fun y => decide (y ≠ x)) (dedupFirst xs)) := by
        show List.filter q (x :: List.filter (fun y => decide (y ≠ x)) (dedupFirst xs)) = _
        simp [List.filter_cons, hq]
      rw [hl, hr, List.filter_comm, ← ih]
      have hxnot : x ∉ dedupFirst (List.filter q xs) := by
        intro hmem
        rcases List.mem_filter.mp (mem_dedupFirst.mp hmem) with ⟨_, hcontr⟩
        rw [hq] at hcontr
        cases hcontr
      refine (List.filter_eq_self.mpr ?_).symm
      intro a ha
      simp only [decide_eq_true_eq]
      intro hax
      exact hxnot (hax ▸ ha)

/-- Appending elements already present to a duplicate free list is absorbed
by deduplication. -/
theorem dedupFirst_append_absorb {l m : List String} (hl : l.Nodup)
    (hm : ∀ a ∈ m, a ∈ l) : dedupFirst (l ++ m) = l := by
  induction l generalizing m with
  | nil =>
    have : m = [] := List.eq_nil_iff_forall_not_mem.mpr (fun a ha => by simpa using hm a ha)
    subst this
    rfl
  | cons x l' ih =>
    rcases List.nodup_cons.mp hl with ⟨hx, hl'⟩
    show x :: List.filter (fun y => decide (y ≠ x)) (dedupFirst (l' ++ m)) = x :: l'
    congr 1
    rw [← dedupFirst_filter_comm, List.filter_append]
    have hfl : List.filter (fun y => decide (y ≠ x)) l' = l' := by
      refine List.filter_eq_self.mpr ?_
      intro a ha
      simp only [decide_eq_true_eq]
      intro hax
      exact hx (hax ▸ ha)
    rw [hfl]
    refine ih hl' ?_
    intro a ha
    rcases List.mem_filter.mp ha with ⟨ham, hax⟩
    simp only [decide_eq_true_eq] at hax
    rcases List.mem_cons.mp (hm a ham) with h | h
    · exact absurd h hax
    · exact h

/-- Unfolding the conditional fold of completedPoints into a filtered sum. -/
theorem foldl_points_eq (p : Profile) (l : List (String × ℕ)) (acc : ℕ) :
    List.foldl (fun s fp => if isFilled (p fp.1) then s + fp.2 else s) acc l
      = acc + List.sum (List.map Prod.snd (List.filter (fun fp => isFilled (p fp.1)) l)) := by
  induction l generalizing acc with
  | nil => simp
  | cons hd tl ih =>
    by_cases h : isFilled (p hd.1) = true
    · simp [List.filter_cons, h, ih]
      omega
    · simp [List.filter_cons, h, ih]

/-- Unfolding the unconditional fold of totalPoints into a sum. -/
theorem foldl_total_eq (l : List (String × ℕ)) (acc : ℕ) :
    List.foldl (fun s fp => s + fp.2) acc l = acc + List.sum (List.map Prod.snd l) := by
  induction l generalizing acc with
  | nil => simp
  | cons hd tl ih => simp [ih]; omega

theorem sum_map_filter_le (q : (String × ℕ) → Bool) (l : List (String × ℕ)) :
    List.sum (List.map Prod.snd (List.filter q l)) ≤ List.sum (List.map Prod.snd l) := by
  induction l with
  | nil => simp
  | cons hd tl ih =>
    by_cases h : q hd = true
    · simp [List.filter_cons, h]
      omega
    · simp [List.filter_cons, h]
      omega

theorem totalPoints_eq : totalPoints = 100 := by decide

theorem completedPoints_le (p : Profile) : completedPoints p ≤ totalPoints := by
  unfold completedPoints totalPoints
  rw [foldl_points_eq, foldl_total_eq]
  simpa using sum_map_filter_le _ _

/-- The floor of an integer plus one half is that integer. -/
theorem jsRound_intCast (z : ℤ) : jsRound (z : ℚ) = z := by
  unfold jsRound
  rw [add_comm, Int.floor_add_int]
  norm_num

/-- Since the weights sum to one hundred, the computed score is exactly the
sum of the weights of the filled fields. -/
theorem calc_eq_points (p : Profile) :
    calculateProfileCompletion p = (completedPoints p : ℤ) := by
  unfold calculateProfileCompletion
  have h100 : (totalPoints : ℚ) = 100 := by rw [totalPoints_eq]; norm_num
  rw [h100]
  have harg : ((completedPoints p : ℚ) / 100 * 100) = (((completedPoints p : ℤ) : ℚ)) := by
    push_cast
    field_simp
  rw [harg, jsRound_intCast]

theorem completedPoints_of_all (p : Profile)
    (h : ∀ fp ∈ completionFields, isFilled (p fp.1) = true) :
    completedPoints p = totalPoints := by
  unfold completedPoints totalPoints
  rw [foldl_points_eq, foldl_total_eq, List.filter_eq_self.mpr h]

theorem points_congr_aux (p q : Profile) (l : List (String × ℕ)) (acc : ℕ)
    (h : ∀ fp ∈ l, p fp.1 = q fp.1) :
    List.foldl (fun s fp => if isFilled (p fp.1) then s + fp.2 else s) acc l
      = List.foldl (fun s fp => if isFilled (q fp.1) then s + fp.2 else s) acc l := by
  induction l generalizing acc with
  | nil => rfl
  | cons hd tl ih =>
    simp only [List.foldl_cons]
    rw [h hd (by simp)]
    exact ih _ (fun fp hfp => h fp (by simp [hfp]))

/-- The score only depends on the schema fields of the profile. -/
theorem calc_congr (p q : Profile) (h : ∀ fp ∈ completionFields, p fp.1 = q fp.1) :
    calculateProfileCompletion p = calculateProfileCompletion q := by
  unfold calculateProfileCompletion completedPoints
  rw [points_congr_aux p q _ _ h]

/-- Modelled from the spec wording: a field counts as filled iff its value
is non null, not the empty string, and for sequences non empty. -/
def specFilledB (v : JVal) : Bool :=
  (!decide (v = JVal.null)) && (!decide (v = JVal.str r"")) &&
    (match v with
     | JVal.arr xs => !xs.isEmpty
     | _ => true)

/-- Modelled from the spec wording: the summed weight of the filled fields. -/
def specFilledWeight (p : Profile) : ℕ :=
  List.sum (List.map Prod.snd (List.filter (fun fp => specFilledB (p fp.1)) completionFields))

/-- Modelled from the spec wording: the summed weight of all fields. -/
def specTotalWeight : ℕ := List.sum (List.map Prod.snd completionFields)

/-- Modelled from the spec wording: one hundred times the filled weight over
the total weight, rounded half up. -/
def specScore (p : Profile) : ℤ :=
  jsRound (100 * (specFilledWeight p : ℚ) / (specTotalWeight : ℚ))

/-- The filled test of the code coincides with the filled test of the spec. -/
theorem isFilled_eq_specFilledB (v : JVal) : isFilled v = specFilledB v := by
  cases v with
  | null => rfl
  | num q => rfl
  | str s =>
    by_cases hs : s = r""
    · subst hs; rfl
    · simp [isFilled, specFilledB, hs]
  | arr xs =>
    cases xs with
    | nil => rfl
    | cons a as => simp [isFilled, specFilledB]

/-- C4: for every profile the completion scorer returns round half up of one
hundred times the summed weight of the filled fields over the summed weight
of all fields, a field being filled iff its value is non null, not the empty
string and for arrays non empty, and the schema weights sum to exactly one
hundred. -/
theorem C4_scorer_weighted_round (p : Profile) :
    calculateProfileCompletion p = specScore p ∧ specTotalWeight = 100 ∧ totalPoints = 100 := by
  refine ⟨?_, by decide, totalPoints_eq⟩
  unfold specScore
  have hfw : specFilledWeight p = completedPoints p := by
    unfold specFilledWeight completedPoints
    rw [foldl_points_eq]
    have : List.filter (fun fp => specFilledB (p fp.1)) completionFields
        = List.filter (fun fp => isFilled (p fp.1)) completionFields := by
      refine List.filter_congr ?_
      intro fp _
      rw [isFilled_eq_specFilledB]
    rw [this]
    omega
  have hsw : (specTotalWeight : ℚ) = 100 := by norm_num [specTotalWeight, completionFields]
  rw [calc_eq_points, hfw, hsw]
  have harg : (100 * (completedPoints p : ℚ) / 100) = (((completedPoints p : ℤ) : ℚ)) := by
    push_cast
    field_simp
  rw [harg, jsRound_intCast]

/-- The row inserted by createUserProfile: the mobile number, the default
language preference and the floor score of five; every other column is
empty. -/
def freshProfile (mobile : String) : Profile := fun f =>
  if f = r"mobile_number" then JVal.str mobile
  else if f = r"language_pref" then JVal.str r"Hinglish"
  else if f = r"profile_completion_score" then JVal.num 5
  else JVal.null

/-- C5: the completion score is an integer in the range zero to one hundred;
a newly created profile with a nonempty mobile number scores exactly five;
and a profile with every schema field filled scores exactly one hundred. -/
theorem C5_score_bounds (p q : Profile) (m : String) (hm : m ≠ r"")
    (hq : ∀ fp ∈ completionFields, isFilled (q fp.1) = true) :
    (0 ≤ calculateProfileCompletion p ∧ calculateProfileCompletion p ≤ 100) ∧
    calculateProfileCompletion (freshProfile m) = 5 ∧
    calculateProfileCompletion q = 100 := by
  refine ⟨⟨?_, ?_⟩, ?_, ?_⟩
  · rw [calc_eq_points]
    exact_mod_cast Nat.zero_le _
  · rw [calc_eq_points]
    have h1 := completedPoints_le p
    have h2 := totalPoints_eq
    omega
  · rw [calc_eq_points]
    have : completedPoints (freshProfile m) = 5 := by
      unfold completedPoints
      rw [foldl_points_eq]
      simp [completionFields, freshProfile, isFilled, hm]
    rw [this]
    rfl
  · rw [calc_eq_points, completedPoints_of_all q hq, totalPoints_eq]
    rfl

def fullProfileW : Profile := fun _ => JVal.str r"x"

theorem C5_score_bounds_witness :
    (0 ≤ calculateProfileCompletion emptyProfile ∧
      calculateProfileCompletion emptyProfile ≤ 100) ∧
    calculateProfileCompletion (freshProfile r"+919876543210") = 5 ∧
    calculateProfileCompletion fullProfileW = 100 :=
  C5_score_bounds emptyProfile fullProfileW r"+919876543210" (by decide) (by decide)

/-- A successful updateProfile call means the merge loop did not throw and
the stored profile is the merged, timestamped and rescored row. -/
theorem updateProfileFull_ok {now : String} {p : Profile} {x : Extraction} {p1 : Profile}
    (hok : updateProfileFull now p x = Except.ok p1) :
    mergeThrows p x = false ∧ p1 = storedRow now p x := by
  unfold updateProfileFull at hok
  by_cases h : mergeThrows p x = true
  · rw [if_pos h] at hok
    cases hok
  · have hf : mergeThrows p x = false := by simpa using h
    rw [if_neg h] at hok
    exact ⟨hf, (Except.ok.inj hok).symm⟩

theorem arrayFields_not_special :
    ∀ f ∈ arrayFields, f ≠ r"updated_at" ∧ f ≠ r"last_profile_update" ∧
      f ≠ r"profile_completion_score" := by decide

theorem completionFields_not_special :
    ∀ fp ∈ completionFields, fp.1 ≠ r"updated_at" ∧ fp.1 ≠ r"last_profile_update" ∧
      fp.1 ≠ r"profile_completion_score" := by decide

/-- When the merge loop does not throw, a truthy current value of a
proposed array field is spreadable. -/
theorem spread_isSome_of_noThrow {p : Profile} {x : Extraction} {f : String}
    {l : List String} (h : mergeThrows p x = false) (hf : f ∈ arrayFields)
    (hx : lookupX x f = some (JVal.arr l)) (ht : (p f).truthy = true) :
    ∃ ce, spreadElems (p f) = some ce := by
  unfold mergeThrows at h
  rw [List.any_eq_false] at h
  have hh := h f hf
  rw [hx] at hh
  cases hsp : spreadElems (p f) with
  | some ce => exact ⟨ce, rfl⟩
  | none =>
    rw [ht, hsp] at hh
    simp at hh

/-- Unfolding mergedValue on an absent key. -/
theorem mergedValue_none (current : Profile) (x : Extraction) (f : String)
    (hx : lookupX x f = none) : mergedValue current x f = current f := by
  unfold mergedValue
  rw [hx]

/-- Unfolding mergedValue on a present key. -/
theorem mergedValue_some (current : Profile) (x : Extraction) (f : String) (v : JVal)
    (hx : lookupX x f = some v) :
    mergedValue current x f =
      (if f ∈ arrayFields then mergeArrayStep (current f) v else v) := by
  simp only [mergedValue, hx]

/-- A proposed value outside the array merge list is copied verbatim. -/
theorem mergedValue_scalar (current : Profile) (x : Extraction) (f : String) (v : JVal)
    (hx : lookupX x f = some v) (hf : f ∉ arrayFields) : mergedValue current x f = v := by
  rw [mergedValue_some current x f v hx, if_neg hf]

/-- A proposed non array value is copied verbatim even on an array field. -/
theorem mergedValue_nonarray (current : Profile) (x : Extraction) (f : String) (v : JVal)
    (hx : lookupX x f = some v) (hv : ∀ l, v ≠ JVal.arr l) :
    mergedValue current x f = v := by
  rw [mergedValue_some current x f v hx]
  by_cases hf : f ∈ arrayFields
  · rw [if_pos hf]
    cases v with
    | null => rfl
    | str s => rfl
    | num q => rfl
    | arr l => exact absurd rfl (hv l)
  · rw [if_neg hf]

/-- Unfolding mergedValue on a proposed array value of an array field. -/
theorem mergedValue_array (current : Profile) (x : Extraction) (f : String)
    (prop : List String) (hx : lookupX x f = some (JVal.arr prop))
    (hf : f ∈ arrayFields) :
    mergedValue current x f =
      (if (current f).truthy then
        match spreadElems (current f) with
        | some ce => JVal.arr (dedupFirst (ce ++ prop))
        | none => JVal.arr prop
      else JVal.arr prop) := by
  rw [mergedValue_some current x f _ hx, if_pos hf]
  rfl

/-- The merged value of a proposed array field, in a non throwing merge, is
an array that preserves duplicate freedom, contains every proposed element,
and is duplicate free outright when the current value was truthy. -/
theorem mergedValue_arrayField {p : Profile} {x : Extraction} {f : String}
    {prop : List String} (hth : mergeThrows p x = false)
    (hf : f ∈ arrayFields) (hx : lookupX x f = some (JVal.arr prop)) :
    ∃ L, mergedValue p x f = JVal.arr L ∧ (prop.Nodup → L.Nodup) ∧
      (∀ a ∈ prop, a ∈ L) ∧ ((p f).truthy = true → L.Nodup) := by
  rw [mergedValue_array p x f prop hx hf]
  cases ht : (p f).truthy with
  | false =>
    refine ⟨prop, by simp [ht], fun hnd => hnd, fun a ha => ha, ?_⟩
    intro hcontr
    cases hcontr
  | true =>
    obtain ⟨ce, hce⟩ := spread_isSome_of_noThrow hth hf hx ht
    refine ⟨dedupFirst (ce ++ prop), by simp [ht, hce], ?_, ?_, ?_⟩
    · intro _
      exact dedupFirst_nodup _
    · intro a ha
      exact mem_dedupFirst.mpr (List.mem_append.mpr (Or.inr ha))
    · intro _
      exact dedupFirst_nodup _

/-- All field names mentioned by the scoring schema, the extraction prompt
and the profile table. -/
def profileFieldNames : List String :=
  List.map Prod.fst completionFields ++
  [r"staff_roles", r"supplier_name", r"pricing_model", r"language_pref",
   r"user_id", r"created_at", r"updated_at", r"last_profile_update",
   r"profile_completion_score"]

/-- C1 counterexample: updateProfile copies a key that belongs to no schema
field into the stored profile instead of ignoring it. -/
theorem C1_counterexample :
    (r"bogus_field" ∉ profileFieldNames) ∧
    (updateProfileFull r"t" emptyProfile [(r"bogus_field", JVal.str r"x")]).map
        (fun p => p r"bogus_field") = Except.ok (JVal.str r"x") :=
  ⟨by decide, rfl⟩

/-- C1 amended: updateProfile performs no schema filtering at all; every
proposed key outside the array merge list and outside the timestamp and
score columns is copied into the stored profile verbatim, whether or not it
is a recognized schema field. -/
theorem C1_amended_no_schema_filter (now : String) (p : Profile) (x : Extraction)
    (f : String) (v : JVal) (p1 : Profile)
    (hok : updateProfileFull now p x = Except.ok p1)
    (hx : lookupX x f = some v)
    (hf : f ∉ arrayFields)
    (h1 : f ≠ r"updated_at") (h2 : f ≠ r"last_profile_update")
    (h3 : f ≠ r"profile_completion_score") :
    p1 f = v := by
  obtain ⟨_, hrow⟩ := updateProfileFull_ok hok
  subst hrow
  unfold storedRow dataRow
  rw [if_neg h3, if_neg h1, if_neg h2]
  exact mergedValue_scalar p x f v hx hf

theorem C1_amended_no_schema_filter_witness :
    storedRow r"t" emptyProfile [(r"bogus2", JVal.num 7)] r"bogus2" = JVal.num 7 :=
  C1_amended_no_schema_filter r"t" emptyProfile [(r"bogus2", JVal.num 7)] r"bogus2"
    (JVal.num 7) (storedRow r"t" emptyProfile [(r"bogus2", JVal.num 7)]) rfl rfl
    (by decide) (by decide) (by decide) (by decide)

/-- C6: a successful merge leaves every field not present in the proposed
mapping unchanged, except the two timestamp columns, which are set to the
merge time, and the completion score, which is recomputed from the merged
row. -/
theorem C6_frame_condition (now : String) (p : Profile) (x : Extraction) (p1 : Profile)
    (hok : updateProfileFull now p x = Except.ok p1) :
    (∀ f, lookupX x f = none → f ≠ r"updated_at" → f ≠ r"last_profile_update" →
      f ≠ r"profile_completion_score" → p1 f = p f) ∧
    p1 r"updated_at" = JVal.str now ∧
    p1 r"last_profile_update" = JVal.str now ∧
    p1 r"profile_completion_score"
      = JVal.num ((calculateProfileCompletion (dataRow now p x) : ℚ)) := by
  obtain ⟨_, hrow⟩ := updateProfileFull_ok hok
  subst hrow
  refine ⟨?_, ?_, ?_, ?_⟩
  · intro f hf h1 h2 h3
    unfold storedRow dataRow
    rw [if_neg h3, if_neg h1, if_neg h2]
    exact mergedValue_none p x f hf
  · unfold storedRow dataRow
    rw [if_neg (by decide), if_pos rfl]
  · unfold storedRow dataRow
    rw [if_neg (by decide), if_neg (by decide), if_pos rfl]
  · unfold storedRow
    rw [if_pos rfl]

theorem C6_frame_condition_witness :
    (∀ f, lookupX [(r"goals", JVal.arr [r"a"])] f = none → f ≠ r"updated_at" →
      f ≠ r"last_profile_update" → f ≠ r"profile_completion_score" →
      storedRow r"t" (freshProfile r"+91") [(r"goals", JVal.arr [r"a"])] f
        = freshProfile r"+91" f) ∧
    storedRow r"t" (freshProfile r"+91") [(r"goals", JVal.arr [r"a"])] r"updated_at"
      = JVal.str r"t" ∧
    storedRow r"t" (freshProfile r"+91") [(r"goals", JVal.arr [r"a"])] r"last_profile_update"
      = JVal.str r"t" ∧
    storedRow r"t" (freshProfile r"+91") [(r"goals", JVal.arr [r"a"])] r"profile_completion_score"
      = JVal.num ((calculateProfileCompletion
          (dataRow r"t" (freshProfile r"+91") [(r"goals", JVal.arr [r"a"])]) : ℚ)) :=
  C6_frame_condition r"t" (freshProfile r"+91") [(r"goals", JVal.arr [r"a"])]
    (storedRow r"t" (freshProfile r"+91") [(r"goals", JVal.arr [r"a"])]) rfl

/-- C2 counterexample: merging a duplicate bearing goals array into a
profile whose goals column is null stores the duplicates verbatim, so a
sequence attribute of the resulting profile does contain duplicates. -/
theorem C2_counterexample :
    emptyProfile r"goals" = JVal.null ∧
    (updateProfileFull r"t" emptyProfile [(r"goals", JVal.arr [r"a", r"a"])]).map
        (fun p => p r"goals") = Except.ok (JVal.arr [r"a", r"a"]) ∧
    ¬ List.Nodup [r"a", r"a"] :=
  ⟨rfl, rfl, by decide⟩

/-- C2 amended: after a single successful merge, a sequence field for which
the proposal supplies an array and whose current value is truthy, in
particular any non null array including the empty array, holds an array
without duplicates; when the current value is null the proposed array is
stored verbatim and may keep its duplicates. -/
theorem C2_amended_dedup (now f : String) (current : Profile) (x : Extraction)
    (p1 : Profile) (prop : List String)
    (hok : updateProfileFull now current x = Except.ok p1)
    (hf : f ∈ arrayFields)
    (hx : lookupX x f = some (JVal.arr prop))
    (ht : (current f).truthy = true) :
    ∃ xs, p1 f = JVal.arr xs ∧ xs.Nodup := by
  obtain ⟨hth, hrow⟩ := updateProfileFull_ok hok
  subst hrow
  obtain ⟨hne1, hne2, hne3⟩ := arrayFields_not_special f hf
  obtain ⟨L, hL, _, _, hndt⟩ := mergedValue_arrayField hth hf hx
  refine ⟨L, ?_, hndt ht⟩
  unfold storedRow dataRow
  rw [if_neg hne3, if_neg hne1, if_neg hne2, hL]

def goalsProfileW : Profile := fun f => if f = r"goals" then JVal.arr [r"a"] else JVal.null

theorem C2_amended_dedup_witness :
    ∃ xs, storedRow r"t" goalsProfileW [(r"goals", JVal.arr [r"b", r"b"])] r"goals"
        = JVal.arr xs ∧ xs.Nodup :=
  C2_amended_dedup r"t" r"goals" goalsProfileW [(r"goals", JVal.arr [r"b", r"b"])]
    (storedRow r"t" goalsProfileW [(r"goals", JVal.arr [r"b", r"b"])]) [r"b", r"b"]
    rfl (by decide) rfl rfl

def xC3 : Extraction := [(r"goals", JVal.arr [r"a", r"a"])]

/-- C3 counterexample: with a null current value and a duplicate bearing
proposed array, one merge stores the duplicates and a second merge of the
same extraction removes them, so merge is not idempotent as claimed. -/
theorem C3_counterexample :
    (updateProfileFull r"t1" emptyProfile xC3).map (fun p => p r"goals")
      = Except.ok (JVal.arr [r"a", r"a"]) ∧
    ((updateProfileFull r"t1" emptyProfile xC3).bind
        (fun p => updateProfileFull r"t2" p xC3)).map (fun p => p r"goals")
      = Except.ok (JVal.arr [r"a"]) ∧
    JVal.arr [r"a", r"a"] ≠ JVal.arr [r"a"] :=
  ⟨rfl, rfl, by decide⟩

/-- C3 amended: merge is idempotent provided every proposed sequence value
is itself free of duplicates: remerging the same extraction succeeds and
changes no stored field except the two timestamp columns.  When a proposed
array carries duplicates and the current value is null, the first merge
stores the duplicates and the second removes them, so the restriction is
necessary. -/
theorem C3_amended_idempotent (p : Profile) (x : Extraction) (t1 t2 : String)
    (p1 : Profile)
    (hnodup : ∀ f prop, lookupX x f = some (JVal.arr prop) → prop.Nodup)
    (h1 : updateProfileFull t1 p x = Except.ok p1) :
    ∃ p2, updateProfileFull t2 p1 x = Except.ok p2 ∧
      ∀ f, f ≠ r"updated_at" → f ≠ r"last_profile_update" → p2 f = p1 f := by
  obtain ⟨hth, hrow⟩ := updateProfileFull_ok h1
  have hp1 : ∀ f, f ≠ r"updated_at" → f ≠ r"last_profile_update" →
      f ≠ r"profile_completion_score" → p1 f = mergedValue p x f := by
    intro f g1 g2 g3
    rw [hrow]
    unfold storedRow dataRow
    rw [if_neg g3, if_neg g1, if_neg g2]
  have harr : ∀ f ∈ arrayFields, ∀ prop, lookupX x f = some (JVal.arr prop) →
      ∃ L, p1 f = JVal.arr L ∧ L.Nodup ∧ ∀ a ∈ prop, a ∈ L := by
    intro f hf prop hx
    obtain ⟨hne1, hne2, hne3⟩ := arrayFields_not_special f hf
    obtain ⟨L, hL, hnd, hmem, _⟩ := mergedValue_arrayField hth hf hx
    refine ⟨L, ?_, hnd (hnodup f prop hx), hmem⟩
    rw [hp1 f hne1 hne2 hne3, hL]
  have hth2 : mergeThrows p1 x = false := by
    unfold mergeThrows
    rw [List.any_eq_false]
    intro f hf
    cases hx : lookupX x f with
    | none => simp [hx]
    | some v =>
      cases v with
      | null => simp [hx]
      | str s => simp [hx]
      | num q => simp [hx]
      | arr prop =>
        obtain ⟨L, hL, _, _⟩ := harr f hf prop hx
        simp [hx, hL, JVal.truthy, spreadElems]
  have hE : ∀ f, f ≠ r"updated_at" → f ≠ r"last_profile_update" →
      f ≠ r"profile_completion_score" → mergedValue p1 x f = p1 f := by
    intro f g1 g2 g3
    cases hx : lookupX x f with
    | none => exact mergedValue_none p1 x f hx
    | some v =>
      by_cases hf : f ∈ arrayFields
      · cases v with
        | arr prop =>
          obtain ⟨L, hL, hLnd, hLmem⟩ := harr f hf prop hx
          rw [mergedValue_array p1 x f prop hx hf, hL]
          simp only [JVal.truthy, spreadElems]
          rw [if_pos trivial]
          congr 1
          exact dedupFirst_append_absorb hLnd hLmem
        | null =>
          rw [mergedValue_nonarray p1 x f _ hx (fun l h => by cases h),
            hp1 f g1 g2 g3, mergedValue_nonarray p x f _ hx (fun l h => by cases h)]
        | str s =>
          rw [mergedValue_nonarray p1 x f _ hx (fun l h => by cases h),
            hp1 f g1 g2 g3, mergedValue_nonarray p x f _ hx (fun l h => by cases h)]
        | num q =>
          rw [mergedValue_nonarray p1 x f _ hx (fun l h => by cases h),
            hp1 f g1 g2 g3, mergedValue_nonarray p x f _ hx (fun l h => by cases h)]
      · rw [mergedValue_scalar p1 x f v hx hf, hp1 f g1 g2 g3,
          mergedValue_scalar p x f v hx hf]
  refine ⟨storedRow t2 p1 x, by simp [updateProfileFull, hth2], ?_⟩
  intro f hf1 hf2
  by_cases hsc : f = r"profile_completion_score"
  · subst hsc
    have hscore : calculateProfileCompletion (dataRow t2 p1 x)
        = calculateProfileCompletion (dataRow t1 p x) := by
      apply calc_congr
      intro fp hfp
      obtain ⟨g1, g2, g3⟩ := completionFields_not_special fp hfp
      unfold dataRow
      rw [if_neg g1, if_neg g2, if_neg g1, if_neg g2]
      rw [hE fp.1 g1 g2 g3, hp1 fp.1 g1 g2 g3]
    have hlhs : storedRow t2 p1 x (r"profile_completion_score")
        = JVal.num ((calculateProfileCompletion (dataRow t2 p1 x) : ℚ)) := by
      unfold storedRow
      rw [if_pos rfl]
    have hrhs : p1 (r"profile_completion_score")
        = JVal.num ((calculateProfileCompletion (dataRow t1 p x) : ℚ)) := by
      rw [hrow]
      unfold storedRow
      rw [if_pos rfl]
    rw [hlhs, hrhs, hscore]
  · show storedRow t2 p1 x f = p1 f
    unfold storedRow dataRow
    rw [if_neg hsc, if_neg hf1, if_neg hf2]
    exact hE f hf1 hf2 hsc

def xC3w : Extraction := [(r"goals", JVal.arr [r"a"])]

theorem C3_amended_idempotent_witness :
    ∃ p2, updateProfileFull r"t2" (storedRow r"t1" emptyProfile xC3w) xC3w
        = Except.ok p2 ∧
      ∀ f, f ≠ r"updated_at" → f ≠ r"last_profile_update" →
        p2 f = storedRow r"t1" emptyProfile xC3w f := by
  refine C3_amended_idempotent emptyProfile xC3w r"t1" r"t2"
    (storedRow r"t1" emptyProfile xC3w) ?_ rfl
  intro f prop h
  by_cases hf : (r"goals" : String) = f
  · rw [show lookupX xC3w f = some (JVal.arr [r"a"]) from by
      simp [lookupX, xC3w, List.find?, hf]] at h
    cases h
    decide
  · rw [show lookupX xC3w f = none from by
      simp [lookupX, xC3w, List.find?, hf]] at h
    cases h

/-- Outcome of the external extraction call as seen inside
extractProfileInfo: a parsed JSON object, a parsed JSON null, or a thrown
error, covering both an API failure and unparseable output. -/
inductive ExtractionOutcome where
  | parsed (x : Extraction)
  | parsedNull
  | failed
deriving Repr

/-- extractProfileInfo in aiService.js: a parsed object is returned as is, a
parsed null falls back to the empty object, and any thrown error is caught
and degraded to the empty object. -/
def extractProfileInfo : ExtractionOutcome → Extraction
  | .parsed x => x
  | .parsedNull => []
  | .failed => []

/-- The challenges test of generateFollowUpSuggestions: a falsy value, or a
length property equal to zero. -/
def challengesMissing : JVal → Bool
  | .null => true
  | .str s => decide (s.length = 0)
  | .num q => decide (q = 0)
  | .arr xs => decide (xs = [])

/-- generateFollowUpSuggestions in aiService.js: up to two prompts for
missing profile information; literal texts are carried without apostrophe
punctuation. -/
def generateFollowUpSuggestions (p : Profile) : List String :=
  List.take 2
    ((if (p r"business_type").truthy then [] else [r"Tell me about your business type"]) ++
     (if (p r"monthly_revenue").truthy then [] else [r"Share your monthly revenue range"]) ++
     (if challengesMissing (p r"challenges")
      then [r"What is your biggest business challenge?"] else []))

/-- Outcome of the external response generation call. -/
inductive GenOutcome where
  | ok (content : String)
  | failed
deriving Repr

/-- The response text of generateResponse: the model output on success, the
fixed apology on a caught error. -/
def genContent : GenOutcome → String
  | .ok c => c
  | .failed =>
    r"I am having trouble processing your request right now. Please try again in a moment."

/-- The suggestions of generateResponse: follow up suggestions computed
from the profile on success, the empty list on a caught error. -/
def genSuggestions (g : GenOutcome) (p : Profile) : List String :=
  match g with
  | .ok _ => generateFollowUpSuggestions p
  | .failed => []

/-- The raw insert of one conversation log row, throwing on failure. -/
def insertLog (succeeds : Bool) : Except Unit Unit :=
  if succeeds then Except.ok () else Except.error ()

/-- logConversation in profileManager.js: the insert error is caught and
swallowed so that logging never breaks the main flow. -/
def logConversation (succeeds : Bool) : Except Unit Unit :=
  match insertLog succeeds with
  | Except.ok _ => Except.ok ()
  | Except.error _ => Except.ok ()

/-- The JSON body returned by the chat route. -/
structure ChatResponse where
  response : String
  profile_completion : ℤ
  extracted_info : Extraction
  suggestions : List String

/-- Assembling the chat route body: response text, completion score
recomputed from the profile row in hand, the extraction result and the
suggestions. -/
def buildResponse (g : GenOutcome) (userProfile : Profile)
    (extractedInfo : Extraction) : ChatResponse :=
  { response := genContent g,
    profile_completion := calculateProfileCompletion userProfile,
    extracted_info := extractedInfo,
    suggestions := genSuggestions g userProfile }

/-- The chat route handler after profile resolution: extract, merge only
when the extraction object has at least one key, generate the response,
log best effort, and answer.  The value carries the response body, the
profile the response was built from and whether updateProfile was invoked;
an error is the route level catch answering with a five hundred status. -/
def chatHandler (now : String) (profile : Profile) (extOut : ExtractionOutcome)
    (gen : GenOutcome) (logOk : Bool) : Except Unit (ChatResponse × Profile × Bool) :=
  Except.bind
    (if 0 < (extractProfileInfo extOut).length
     then Except.map (fun pr => (pr, true))
       (updateProfileData now profile (extractProfileInfo extOut))
     else Except.ok (profile, false))
    (fun upd =>
      Except.map (fun _ => (buildResponse gen upd.1 (extractProfileInfo extOut), upd.1, upd.2))
        (logConversation logOk))

/-- C7: a failed or null extraction degrades to the empty mapping; the
merge runs exactly when the extraction result is nonempty; and with an
empty result the request proceeds with the unchanged profile and still
returns a response. -/
theorem C7_extraction_fallback (now : String) (p : Profile) (gen : GenOutcome)
    (logOk : Bool) :
    extractProfileInfo ExtractionOutcome.failed = [] ∧
    extractProfileInfo ExtractionOutcome.parsedNull = [] ∧
    (∀ extOut, extractProfileInfo extOut = [] →
      chatHandler now p extOut gen logOk
        = Except.ok (buildResponse gen p [], p, false)) ∧
    (∀ extOut x, extractProfileInfo extOut = x → x ≠ [] →
      chatHandler now p extOut gen logOk
        = Except.map (fun pr => (buildResponse gen pr x, pr, true))
            (updateProfileData now p x)) := by
  refine ⟨rfl, rfl, ?_, ?_⟩
  · intro extOut h
    unfold chatHandler
    rw [h]
    cases logOk <;> rfl
  · intro extOut x h hne
    unfold chatHandler
    rw [h]
    rw [if_pos (List.length_pos.mpr hne)]
    cases hud : updateProfileData now p x with
    | error e => cases logOk <;> rfl
    | ok pr => cases logOk <;> rfl

theorem C7_extraction_fallback_witness :
    chatHandler r"t" emptyProfile ExtractionOutcome.failed GenOutcome.failed true
      = Except.ok (buildResponse GenOutcome.failed emptyProfile [], emptyProfile, false) :=
  (C7_extraction_fallback r"t" emptyProfile GenOutcome.failed true).2.2.1
    ExtractionOutcome.failed rfl

/-- C8: the conversation log insert failure is swallowed inside
logConversation, and the chat response is identical whether the log write
succeeds or fails. -/
theorem C8_log_failure_isolated (now : String) (p : Profile)
    (extOut : ExtractionOutcome) (gen : GenOutcome) :
    logConversation false = Except.ok () ∧
    logConversation true = Except.ok () ∧
    chatHandler now p extOut gen true = chatHandler now p extOut gen false := by
  exact ⟨rfl, rfl, rfl⟩

/-- The roll up produced by getAnalytics, which catches its own errors and
degrades to zero counts, so it never throws into its callers. -/
structure AnalyticsResult where
  total_conversations : ℕ
  avg_response_time_ms : ℤ
deriving Repr

/-- The object assembled by getUserActivitySummary. -/
structure ActivitySummary where
  profile_completion : ℤ
  last_active : JVal
  conversation_count : ℕ
  avg_response_time : ℤ
  business_type : JVal
  business_location : JVal
  business_revenue : JVal
deriving Repr

/-- getUserByUserId: the mobile number column of the row matching the user
id, or null when the row is missing or the query failed. -/
def getUserByUserId (row : Option String) : Option String := row

/-- getUserProfile: the profile row for a mobile number, or null when the
identifier is null or no row matches. -/
def getUserProfile (store : String → Option Profile) : Option String → Option Profile
  | none => none
  | some m => store m

/-- Optional chaining access on a possibly null profile. -/
def optField (profile : Option Profile) (f : String) : JVal :=
  match profile with
  | none => JVal.null
  | some pr => pr f

/-- calculateProfileCompletion as invoked inside getUserActivitySummary:
the code reads fields of the profile object, which throws a TypeError when
the profile is null. -/
def calcCompletionOrThrow : Option Profile → Except Unit ℤ
  | none => Except.error ()
  | some pr => Except.ok (calculateProfileCompletion pr)

/-- getUserActivitySummary in profileManager.js: resolve the profile
through getUserByUserId and getUserProfile, take the analytics roll up,
and assemble the summary; any exception inside the try block is caught and
null is returned. -/
def getUserActivitySummary (store : String → Option Profile)
    (mobileRow : Option String) (analytics : AnalyticsResult) : Option ActivitySummary :=
  match calcCompletionOrThrow (getUserProfile store (getUserByUserId mobileRow)) with
  | Except.error _ => none
  | Except.ok score =>
      some { profile_completion := score,
             last_active := optField (getUserProfile store (getUserByUserId mobileRow)) r"updated_at",
             conversation_count := analytics.total_conversations,
             avg_response_time := analytics.avg_response_time_ms,
             business_type := optField (getUserProfile store (getUserByUserId mobileRow)) r"business_type",
             business_location := optField (getUserProfile store (getUserByUserId mobileRow)) r"location_city",
             business_revenue := optField (getUserProfile store (getUserByUserId mobileRow)) r"monthly_revenue" }

/-- C9: whenever the profile of a user id cannot be resolved, the activity
summary operation returns null; the TypeError thrown inside the try block
is caught there, so no exception reaches the caller. -/
theorem C9_missing_profile (store : String → Option Profile)
    (mobileRow : Option String) (analytics : AnalyticsResult)
    (h : getUserProfile store (getUserByUserId mobileRow) = none) :
    getUserActivitySummary store mobileRow analytics = none := by
  unfold getUserActivitySummary
  rw [h]
  rfl

theorem C9_missing_profile_witness :
    getUserActivitySummary (fun _ => none) none (AnalyticsResult.mk 0 0) = none :=
  C9_missing_profile (fun _ => none) none (AnalyticsResult.mk 0 0) rfl

/-- Bool test for one character list being a contiguous infix of another. -/
def charsInfix (needle hay : List Char) : Bool :=
  List.any (List.range (hay.length + 1))
    (fun i => decide (List.take needle.length (List.drop i hay) = needle))

/-- JavaScript String.includes as a substring test. -/
def strIncludes (s needle : String) : Bool := charsInfix needle.toList s.toList

/-- JavaScript optional chaining followed by includes: null and undefined
yield undefined, hence a falsy result; strings test substrings; arrays
test membership; numbers have no includes method and throw. -/
def optChainIncludes (v : JVal) (needle : String) : Except Unit Bool :=
  match v with
  | JVal.null => Except.ok false
  | JVal.str s => Except.ok (strIncludes s needle)
  | JVal.arr xs => Except.ok (decide (needle ∈ xs))
  | JVal.num _ => Except.error ()

/-- The monthly revenue clause of getBusinessInsights: a falsy revenue
short circuits to false; otherwise includes is invoked directly on the
revenue value, which throws a TypeError on a number; when the revenue
mentions Below, the goals are consulted through optional chaining. -/
def revenueInsight (p : Profile) : Except Unit Bool :=
  if (p r"monthly_revenue").truthy then
    Except.bind
      (match p r"monthly_revenue" with
       | JVal.str s => Except.ok (strIncludes s r"Below")
       | JVal.arr xs => Except.ok (decide ((r"Below" : String) ∈ xs))
       | _ => Except.error ())
      (fun hasBelow =>
        if hasBelow then
          Except.map (fun g => !g) (optChainIncludes (p r"goals") r"increase revenue")
        else Except.ok false)
  else Except.ok false

/-- getBusinessInsights in the enhanced service: the completion score falls
back to fifty because the method is absent on the service object, so the
first insight never fires; then the restaurant clause and the revenue
clause may append insights. -/
def getBusinessInsights (p : Profile) : Except Unit (List String) :=
  Except.bind
    (if p r"business_type" = JVal.str r"restaurant"
     then Except.map (fun b => !b) (optChainIncludes (p r"platforms_used") r"Zomato")
     else Except.ok false)
    (fun restMissing =>
      Except.map
        (fun rev =>
          (if (50 : ℤ) < 30
           then [r"Complete your profile to get personalized business advice"] else []) ++
          (if restMissing
           then [r"Consider joining food delivery platforms to increase reach"] else []) ++
          (if rev
           then [r"Setting revenue growth goals could help focus your efforts"] else []))
        (revenueInsight p))

/-- Optional chaining toLowerCase: null yields undefined, strings become
lower case, any other value throws. -/
def optToLower : JVal → Except Unit (Option String)
  | JVal.null => Except.ok none
  | JVal.str s => Except.ok (some s.toLower)
  | _ => Except.error ()

/-- generateContextualTips in the enhanced service: business type specific
tips, then metro location tips, truncated to two. -/
def generateContextualTips (p : Profile) : Except Unit (List String) :=
  Except.bind (optToLower (p r"business_type")) (fun businessType =>
    Except.bind (optToLower (p r"location_city")) (fun location =>
      Except.bind
        (match businessType with
         | some bt =>
           if bt = r"restaurant" then
             Except.map (fun insta =>
               [r"Focus on food quality and customer service for repeat customers"] ++
               (if insta then [] else [r"Share food photos on Instagram to attract customers"]))
               (optChainIncludes (p r"platforms_used") r"Instagram")
           else if bt = r"salon" then
             Except.ok [r"Before and after photos showcase your skills effectively",
               r"Building client relationships leads to regular appointments"]
           else if bt = r"retail" then
             Except.ok [r"Display products attractively to increase impulse purchases",
               r"Track inventory to avoid stockouts during peak times"]
           else Except.ok []
         | none => Except.ok [])
        (fun tips1 =>
          Except.ok (List.take 2 (tips1 ++
            (match location with
             | some loc =>
               if strIncludes loc r"delhi" || strIncludes loc r"mumbai"
               then [r"Consider digital marketing for metro city competition"]
               else []
             | none => []))))))

/-- Result of the enhanced chat route tail: either the success body or the
catch branch answering with a five hundred status. -/
inductive EnhancedOutcome where
  | success (insights : List String) (tips : List String)
  | serverError500
deriving DecidableEq, Repr

/-- The tail of the enhanced chat route handler: business insights and
contextual tips are computed inside the route try block, so a TypeError
thrown by either is caught by the route catch and becomes a five hundred
error instead of a chat response. -/
def enhancedHandlerTail (userProfile : Profile) : EnhancedOutcome :=
  match Except.bind (getBusinessInsights userProfile)
      (fun ins => Except.map (fun tips => (ins, tips))
        (generateContextualTips userProfile)) with
  | Except.ok pr => EnhancedOutcome.success pr.1 pr.2
  | Except.error _ => EnhancedOutcome.serverError500

def revZeroProfile : Profile :=
  fun f => if f = r"monthly_revenue" then JVal.num 0 else JVal.null

/-- C10 counterexample: a profile whose monthly revenue is the number zero
holds a numeric value, yet zero is falsy, the includes call is short
circuited, no TypeError is raised and the enhanced route answers normally. -/
theorem C10_counterexample :
    revZeroProfile r"monthly_revenue" = JVal.num 0 ∧
    getBusinessInsights revZeroProfile = Except.ok [] ∧
    enhancedHandlerTail revZeroProfile ≠ EnhancedOutcome.serverError500 :=
  ⟨rfl, rfl, by decide⟩

/-- C10 amended: for every profile whose monthly revenue holds a nonzero
number, the shape the schema and the extraction prompt specify,
getBusinessInsights throws a TypeError by invoking includes on the number,
and the enhanced chat route therefore answers with a five hundred error
instead of a chat response; a zero revenue is falsy and escapes the error. -/
theorem C10_amended_numeric_revenue (p : Profile) (q : ℚ) (hq : q ≠ 0)
    (hrev : p r"monthly_revenue" = JVal.num q) :
    getBusinessInsights p = Except.error () ∧
    enhancedHandlerTail p = EnhancedOutcome.serverError500 := by
  have hri : revenueInsight p = Except.error () := by
    unfold revenueInsight
    rw [hrev]
    simp [JVal.truthy, hq, Except.bind]
  have hbi : getBusinessInsights p = Except.error () := by
    unfold getBusinessInsights
    cases hrc : (if p r"business_type" = JVal.str r"restaurant"
        then Except.map (fun b => !b) (optChainIncludes (p r"platforms_used") r"Zomato")
        else Except.ok false) with
    | error e => rfl
    | ok b =>
      show Except.map _ (revenueInsight p) = Except.error ()
      rw [hri]
      rfl
  refine ⟨hbi, ?_⟩
  unfold enhancedHandlerTail
  rw [hbi]
  rfl

def revNumProfile : Profile :=
  fun f => if f = r"monthly_revenue" then JVal.num 80000 else JVal.null

theorem C10_amended_numeric_revenue_witness :
    getBusinessInsights revNumProfile = Except.error () ∧
    enhancedHandlerTail revNumProfile = EnhancedOutcome.serverError500 :=
  C10_amended_numeric_revenue revNumProfile 80000 (by norm_num) rfl

end Partnur
